import Mathlib

/-!
Verification of the quote-aggregation, route-selection and trade-execution
core of the repository. The Lean definitions below are a shallow embedding
of the TypeScript sources:
  * `src/src/state/slices/tradeQuoteSlice/selectors.ts` (redux selectors),
  * `src/src/components/MultiHopTrade/components/MultiHopTradeConfirm/hooks/useTradeExecution.tsx`
    (per-hop execution event handling and chain-family dispatch),
  * `src/unnamed/part_000` (the Arbitrum bridge getTradeQuote).
Decimal bignumber strings are embedded as `Rat` values, base-unit amount
strings as `Nat`, `undefined` as `Option.none`, thrown errors as
`Except.error`. Redux records keyed by provider identity and route id are
embedded as association lists.
-/

set_option autoImplicit false

namespace Shap

/-! ## Data model -/

/-- Closed enumeration of provider identities (SwapperName in the swapper
package). The selector logic only distinguishes CowSwap from the rest. -/
inductive SwapperName where
  | thorchain
  | cowSwap
  | zrx
  | oneInch
  | lifi
  | arbitrumBridge
  | portals
deriving DecidableEq, Repr

/-- Fixed enumeration order of providers, used by the ranking layer to break
ties deterministically (spec section 4.3: a fixed deterministic
provider-enumeration order, never arrival order). -/
def swapperOrder : SwapperName → Nat
  | .thorchain => 0
  | .cowSwap => 1
  | .zrx => 2
  | .oneInch => 3
  | .lifi => 4
  | .arbitrumBridge => 5
  | .portals => 6

structure Asset where
  assetId : String
  chainId : String
  precision : Nat
deriving DecidableEq, Repr

structure QuoteFeeData where
  protocolFees : List (String × Nat)
  networkFeeCryptoBaseUnit : Option Nat
deriving DecidableEq, Repr

/-- One hop (TradeQuoteStep) of a route, with the fields the selectors read. -/
structure TradeQuoteStep where
  sellAsset : Asset
  buyAsset : Asset
  accountNumber : Nat
  sellAmountIncludingProtocolFeesCryptoBaseUnit : Nat
  buyAmountBeforeFeesCryptoBaseUnit : Nat
  buyAmountAfterFeesCryptoBaseUnit : Nat
  feeData : QuoteFeeData
  estimatedExecutionTimeMs : Nat
deriving DecidableEq, Repr

/-- A route (TradeQuote): ordered non-empty sequence of hops plus metadata. -/
structure TradeQuote where
  id : String
  steps : List TradeQuoteStep
  receiveAddress : String
  affiliateBps : String
  rate : String
deriving DecidableEq, Repr

/-- Per provider, per route id response (ApiQuote): an optional resolved
route, recorded errors, and the precomputed ranking key. The ranking key
stands for the effective received value of the route converted to the
common reference currency (spec section 4.3); the aggregator computes it
when it records the response. -/
structure ApiQuote where
  quote : Option TradeQuote
  errors : List String
  effectiveReceivedValue : ℚ
deriving DecidableEq, Repr

/-- Top-level request and response errors surfaced by the selectors. The
validation kinds are the RequestValidationError taxonomy of spec section 7. -/
inductive TradeQuoteRequestError where
  | noQuotesAvailable
  | walletNotConnected
  | sellAssetChainNotSupported
  | buyAssetChainNotSupported
  | insufficientFunds
deriving DecidableEq, Repr

/-- The slice of redux state the trade-quote selectors read. `tradeQuotes`
is the AggregateState: provider identity to route id to response. -/
structure State where
  tradeQuotes : List (SwapperName × List (String × ApiQuote))
  activeQuoteMeta : Option (SwapperName × String)
  confirmedQuote : Option TradeQuote
  inputSellAmountCryptoBaseUnit : Option Nat
  enabledSwappers : List SwapperName
  isWalletConnected : Bool
  walletConnectedChainIds : List String
  manualReceiveAddress : Option String
  sellAssetBalanceCryptoBaseUnit : Nat
  inputSellAsset : Asset
  inputBuyAsset : Asset
  feeAssets : List (String × Asset)
  marketDataUserCurrency : List (String × ℚ)
deriving DecidableEq, Repr

/-- Association-list lookup, the embedding of keyed record access. -/
def alookup {κ α : Type} [DecidableEq κ] : List (κ × α) → κ → Option α
  | [], _ => none
  | p :: l, k => if p.1 = k then some p.2 else alookup l k

/-- Well-formedness of the AggregateState record: keys are unique at both
levels, as they are for a TypeScript object keyed by provider then id. -/
def wellFormedQuotes (tq : List (SwapperName × List (String × ApiQuote))) : Prop :=
  (tq.map Prod.fst).Nodup ∧ ∀ p ∈ tq, ((p.2).map Prod.fst).Nodup

/-! ## Basic selectors (selectors.ts) -/

/-- Selector bnOrZero(inputSellAmountCryptoBaseUnit).gt(0): a missing or
unparseable amount string behaves as zero. -/
def hasUserEnteredAmount (s : State) : Bool :=
  decide (0 < s.inputSellAmountCryptoBaseUnit.getD 0)

/-- Modelled from the spec: `validateQuoteRequest`
(state/apis/swapper/helpers/validateQuoteRequest.ts) is not under src/.
Spec section 7 lists the RequestValidationError kinds (wallet disconnected,
unsupported chain pair, zero or invalid amount, insufficient balance) and
section 4.2 runs this precondition check once before provider fan-out. -/
def validateQuoteRequest (isWalletConnected : Bool)
    (walletConnectedChainIds : List String) (manualReceiveAddress : Option String)
    (sellAssetBalanceCryptoBaseUnit : Nat) (sellAmountCryptoBaseUnit : Nat)
    (sellAsset buyAsset : Asset) : List TradeQuoteRequestError :=
  (if !isWalletConnected then [.walletNotConnected] else []) ++
  (if !(walletConnectedChainIds.contains sellAsset.chainId) then
    [.sellAssetChainNotSupported] else []) ++
  (if manualReceiveAddress.isNone &&
      !(walletConnectedChainIds.contains buyAsset.chainId) then
    [.buyAssetChainNotSupported] else []) ++
  (if sellAssetBalanceCryptoBaseUnit < sellAmountCryptoBaseUnit then
    [.insufficientFunds] else [])

/-- selectTradeQuoteRequestErrors (selectors.ts lines 119-151): the empty
list when no amount is entered, otherwise the request validation result. -/
def selectTradeQuoteRequestErrors (s : State) : List TradeQuoteRequestError :=
  if !hasUserEnteredAmount s then []
  else
    validateQuoteRequest s.isWalletConnected s.walletConnectedChainIds
      s.manualReceiveAddress s.sellAssetBalanceCryptoBaseUnit
      (s.inputSellAmountCryptoBaseUnit.getD 0) s.inputSellAsset s.inputBuyAsset

/-- selectTradeQuoteResponseErrors (selectors.ts lines 155-177). Note the
source compares the number of entries of the tradeQuotes record with the
number of enabled swappers, and tests emptiness of every recorded response
record, not usability of routes. -/
def selectTradeQuoteResponseErrors (s : State) : List TradeQuoteRequestError :=
  if !hasUserEnteredAmount s then []
  else if s.tradeQuotes.length < s.enabledSwappers.length then []
  else if s.tradeQuotes.all (fun p => p.2.isEmpty) then
    [.noQuotesAvailable]
  else []

/-- Claim-side predicate: every enabled provider has a recorded response in
the AggregateState. -/
def allEnabledSwappersResponded (s : State) : Bool :=
  s.enabledSwappers.all (fun sw => (alookup s.tradeQuotes sw).isSome)

/-- Claim-side predicate: some recorded response contains a usable route
(mirrors selectIsSwapperQuoteAvailable, selectors.ts lines 100-115). -/
def anyUsableRoute (s : State) : Bool :=
  s.tradeQuotes.any (fun p => p.2.any (fun q => q.2.quote.isSome))

/-! ## Ranking layer and active-route selection -/

/-- One flattened, rankable response: provider identity, route id, the
response itself and its resolved route. -/
structure RankedEntry where
  swapperName : SwapperName
  identifier : String
  response : ApiQuote
  quote : TradeQuote
deriving DecidableEq, Repr

/-- Responses of one provider that resolved to a route; errored or empty
responses are excluded from ranking (spec section 4.3). -/
def entriesOfSwapper (sw : SwapperName) (m : List (String × ApiQuote)) :
    List RankedEntry :=
  m.filterMap (fun p =>
    (p.2.quote).map (fun q =>
      { swapperName := sw, identifier := p.1, response := p.2, quote := q }))

/-- Every rankable response of the AggregateState. -/
def flattenQuoteEntries (tq : List (SwapperName × List (String × ApiQuote))) :
    List RankedEntry :=
  tq.flatMap (fun p => entriesOfSwapper p.1 p.2)

def totalEstimatedTimeMs (q : TradeQuote) : Nat :=
  (q.steps.map (fun st => st.estimatedExecutionTimeMs)).sum

/-- Ranking order of spec section 4.3: descending effective received value,
ties by ascending total estimated execution time, then by the fixed
provider-enumeration order. -/
def rankLe (a b : RankedEntry) : Bool :=
  if a.response.effectiveReceivedValue = b.response.effectiveReceivedValue then
    if totalEstimatedTimeMs a.quote = totalEstimatedTimeMs b.quote then
      decide (swapperOrder a.swapperName ≤ swapperOrder b.swapperName)
    else decide (totalEstimatedTimeMs a.quote < totalEstimatedTimeMs b.quote)
  else decide (b.response.effectiveReceivedValue < a.response.effectiveReceivedValue)

def insertRanked (a : RankedEntry) : List RankedEntry → List RankedEntry
  | [] => [a]
  | b :: l => if rankLe a b then a :: b :: l else b :: insertRanked a l

def sortRanked : List RankedEntry → List RankedEntry
  | [] => []
  | a :: l => insertRanked a (sortRanked l)

/-- Modelled from the spec: `sortTradeQuotes`
(state/slices/tradeQuoteSlice/helpers.ts) is not under src/. Spec section
4.3: a pure function over AggregateState producing one ordered list of
routes, excluding errored or empty responses. -/
def sortTradeQuotes (tq : List (SwapperName × List (String × ApiQuote))) :
    List RankedEntry :=
  sortRanked (flattenQuoteEntries tq)

def bestQuoteMeta (sorted : List RankedEntry) : Option (SwapperName × String) :=
  sorted.head?.map (fun e => (e.swapperName, e.identifier))

/-- Modelled from the spec: `getActiveQuoteMetaOrDefault`
(state/slices/tradeQuoteSlice/helpers.ts) is not under src/. Spec section
4.4: the explicit pinned (provider, route-id) if it still resolves, else
the top of the ranking layer, else absent. -/
def getActiveQuoteMetaOrDefault (activeQuoteMeta : Option (SwapperName × String))
    (sorted : List RankedEntry) : Option (SwapperName × String) :=
  match activeQuoteMeta with
  | some pin =>
    if sorted.any (fun e => decide (e.swapperName = pin.1 ∧ e.identifier = pin.2))
    then some pin
    else bestQuoteMeta sorted
  | none => bestQuoteMeta sorted

def selectSortedTradeQuotes (s : State) : List RankedEntry :=
  sortTradeQuotes s.tradeQuotes

def selectActiveQuoteMetaOrDefault (s : State) : Option (SwapperName × String) :=
  getActiveQuoteMetaOrDefault s.activeQuoteMeta (selectSortedTradeQuotes s)

/-- Keyed lookup into the AggregateState, provider then route id. -/
def lookupQuoteEntry (tq : List (SwapperName × List (String × ApiQuote)))
    (sw : SwapperName) (id : String) : Option ApiQuote :=
  match alookup tq sw with
  | some m => alookup m id
  | none => none

/-- selectActiveSwapperApiResponse (selectors.ts lines 214-224). -/
def selectActiveSwapperApiResponse (s : State) : Option ApiQuote :=
  match selectActiveQuoteMetaOrDefault s with
  | none => none
  | some meta => lookupQuoteEntry s.tradeQuotes meta.1 meta.2

/-- selectActiveQuote (selectors.ts lines 226-238): the confirmed quote if
set, else the quote of the active response. -/
def selectActiveQuote (s : State) : Option TradeQuote :=
  match s.confirmedQuote with
  | some confirmedQuote => some confirmedQuote
  | none => (selectActiveSwapperApiResponse s).bind (fun r => r.quote)

/-- selectActiveSwapperName (selectors.ts lines 199-212). -/
def selectActiveSwapperName (s : State) : Option SwapperName :=
  match selectActiveQuoteMetaOrDefault s with
  | none => none
  | some meta =>
    if (lookupQuoteEntry s.tradeQuotes meta.1 meta.2).isSome then some meta.1
    else none

/-- Claim-side reading of spec section 4.4 for an unconfirmed state: the
pinned (provider, route-id) if it resolves to a route in AggregateState,
else the top of the ranking layer output, else absent. -/
def claimActiveQuote (s : State) : Option TradeQuote :=
  match s.activeQuoteMeta with
  | some pin =>
    match (lookupQuoteEntry s.tradeQuotes pin.1 pin.2).bind (fun r => r.quote) with
    | some q => some q
    | none => ((sortTradeQuotes s.tradeQuotes).head?).map (fun e => e.quote)
  | none => ((sortTradeQuotes s.tradeQuotes).head?).map (fun e => e.quote)

/-! ## Hop and network-fee selectors (selectors.ts lines 285-498) -/

/-- getHopByIndex of the swapper package: index access into the steps. -/
def getHopByIndex (quote : Option TradeQuote) (index : Nat) : Option TradeQuoteStep :=
  quote.bind (fun q => q.steps[index]?)

def selectFirstHop (s : State) : Option TradeQuoteStep :=
  getHopByIndex (selectActiveQuote s) 0

def selectSecondHop (s : State) : Option TradeQuoteStep :=
  getHopByIndex (selectActiveQuote s) 1

def selectLastHop (s : State) : Option TradeQuoteStep :=
  (selectActiveQuote s).bind (fun q => getHopByIndex (some q) (q.steps.length - 1))

def selectFirstHopSellAsset (s : State) : Option Asset :=
  (selectFirstHop s).map (fun st => st.sellAsset)

def selectSecondHopSellAsset (s : State) : Option Asset :=
  (selectSecondHop s).map (fun st => st.sellAsset)

def selectLastHopSellAsset (s : State) : Option Asset :=
  (selectLastHop s).map (fun st => st.sellAsset)

/-- selectFeeAssetById of the assets slice: keyed lookup of the fee asset of
a chain by asset id; the empty string key resolves to nothing. -/
def selectFeeAssetById (s : State) (assetId : String) : Option Asset :=
  alookup s.feeAssets assetId

def selectFirstHopSellFeeAsset (s : State) : Option Asset :=
  selectFeeAssetById s (((selectFirstHopSellAsset s).map (fun a => a.assetId)).getD "")

def selectSecondHopSellFeeAsset (s : State) : Option Asset :=
  selectFeeAssetById s (((selectSecondHopSellAsset s).map (fun a => a.assetId)).getD "")

def selectLastHopSellFeeAsset (s : State) : Option Asset :=
  selectFeeAssetById s (((selectLastHopSellAsset s).map (fun a => a.assetId)).getD "")

/-- selectNetworkFeeRequiresBalance (selectors.ts lines 382-385): every
swapper but CowSwap requires balance for the network fee. -/
def selectNetworkFeeRequiresBalance (s : State) : Bool :=
  decide (selectActiveSwapperName s ≠ some SwapperName.cowSwap)

def selectFirstHopNetworkFeeCryptoBaseUnit (s : State) : Option Nat :=
  (selectFirstHop s).bind (fun st => st.feeData.networkFeeCryptoBaseUnit)

def selectSecondHopNetworkFeeCryptoBaseUnit (s : State) : Option Nat :=
  (selectSecondHop s).bind (fun st => st.feeData.networkFeeCryptoBaseUnit)

def selectLastHopNetworkFeeCryptoBaseUnit (s : State) : Option Nat :=
  (selectLastHop s).bind (fun st => st.feeData.networkFeeCryptoBaseUnit)

/-- bnOrZero over an optional base-unit amount. -/
def bnOrZero (o : Option Nat) : Nat := o.getD 0

/-- fromBaseUnit (lib/math): base-unit amount divided by ten to the
precision of the asset. -/
def fromBaseUnit (amount : Nat) (precision : Nat) : ℚ :=
  (amount : ℚ) / (10 : ℚ) ^ precision

/-- selectFirstHopNetworkFeeCryptoPrecision (selectors.ts lines 396-405):
zero whenever the swapper is CowSwap or the fee asset is missing, else the
base-unit fee converted by the fee-asset precision. -/
def selectFirstHopNetworkFeeCryptoPrecision (s : State) : ℚ :=
  match selectNetworkFeeRequiresBalance s, selectFirstHopSellFeeAsset s with
  | true, some feeAsset =>
    fromBaseUnit (bnOrZero (selectFirstHopNetworkFeeCryptoBaseUnit s)) feeAsset.precision
  | _, _ => 0

/-- selectSecondHopNetworkFeeCryptoPrecision (selectors.ts lines 407-416). -/
def selectSecondHopNetworkFeeCryptoPrecision (s : State) : ℚ :=
  match selectNetworkFeeRequiresBalance s, selectSecondHopSellFeeAsset s with
  | true, some feeAsset =>
    fromBaseUnit (bnOrZero (selectSecondHopNetworkFeeCryptoBaseUnit s)) feeAsset.precision
  | _, _ => 0

/-- selectLastHopNetworkFeeCryptoPrecision (selectors.ts lines 418-426). -/
def selectLastHopNetworkFeeCryptoPrecision (s : State) : ℚ :=
  match selectNetworkFeeRequiresBalance s, selectLastHopSellFeeAsset s with
  | true, some feeAsset =>
    fromBaseUnit (bnOrZero (selectLastHopNetworkFeeCryptoBaseUnit s)) feeAsset.precision
  | _, _ => 0

/-- Modelled from the spec: `getHopTotalNetworkFeeUserCurrencyPrecision`
(state/slices/tradeQuoteSlice/helpers.ts) is not under src/. Spec sections
3 and 4.3: the network fee of a hop, in base units of the sell-side fee
asset, converted to the common reference currency; nothing when the
network fee is unknown. -/
def getHopTotalNetworkFeeUserCurrencyPrecision (networkFeeCryptoBaseUnit : Option Nat)
    (feeAsset : Asset) (feeAssetUserCurrencyRate : ℚ) : Option ℚ :=
  networkFeeCryptoBaseUnit.map
    (fun fee => fromBaseUnit fee feeAsset.precision * feeAssetUserCurrencyRate)

/-- Market-data rate of the fee asset, zero when unknown (selectors.ts
getFeeAssetUserCurrencyRate). -/
def feeAssetUserCurrencyRate (s : State) (feeAsset : Asset) : ℚ :=
  (alookup s.marketDataUserCurrency feeAsset.assetId).getD 0

/-- selectFirstHopNetworkFeeUserCurrencyPrecision (selectors.ts lines
428-452): nothing without a first hop, a thrown error without a fee asset,
else the converted fee. The CowSwap flag plays no part here. -/
def selectFirstHopNetworkFeeUserCurrencyPrecision (s : State) :
    Except String (Option ℚ) :=
  match selectFirstHop s with
  | none => .ok none
  | some step =>
    match selectFirstHopSellFeeAsset s with
    | none => .error ("missing fee asset for assetId " ++ step.sellAsset.assetId)
    | some feeAsset =>
      .ok (getHopTotalNetworkFeeUserCurrencyPrecision
        step.feeData.networkFeeCryptoBaseUnit feeAsset (feeAssetUserCurrencyRate s feeAsset))

/-- selectSecondHopNetworkFeeUserCurrencyPrecision (selectors.ts lines
454-477). -/
def selectSecondHopNetworkFeeUserCurrencyPrecision (s : State) :
    Except String (Option ℚ) :=
  match selectSecondHop s with
  | none => .ok none
  | some step =>
    match selectSecondHopSellFeeAsset s with
    | none => .error ("missing fee asset for assetId " ++ step.sellAsset.assetId)
    | some feeAsset =>
      .ok (getHopTotalNetworkFeeUserCurrencyPrecision
        step.feeData.networkFeeCryptoBaseUnit feeAsset (feeAssetUserCurrencyRate s feeAsset))

/-- selectTotalNetworkFeeUserCurrencyPrecision (selectors.ts lines 490-498):
the sum of the two per-hop user-currency fees, a missing hop counting as
zero. -/
def selectTotalNetworkFeeUserCurrencyPrecision (s : State) : Except String ℚ :=
  match selectFirstHopNetworkFeeUserCurrencyPrecision s,
      selectSecondHopNetworkFeeUserCurrencyPrecision s with
  | .error e, _ => .error e
  | .ok _, .error e => .error e
  | .ok first, .ok second => .ok (first.getD 0 + second.getD 0)

/-- Claim-side conversion for the amended C10: the base-unit network fee of
a hop converted by the fee-asset precision, zero without a fee asset. -/
def convertedHopFeeCryptoPrecision (feeAsset : Option Asset) (fee : Option Nat) : ℚ :=
  match feeAsset with
  | some fa => fromBaseUnit (bnOrZero fee) fa.precision
  | none => 0

/-! ## Sample values for witnesses and counterexamples -/

def emptyAsset : Asset := { assetId := "", chainId := "", precision := 0 }

def emptyState : State :=
  { tradeQuotes := []
    activeQuoteMeta := none
    confirmedQuote := none
    inputSellAmountCryptoBaseUnit := none
    enabledSwappers := []
    isWalletConnected := false
    walletConnectedChainIds := []
    manualReceiveAddress := none
    sellAssetBalanceCryptoBaseUnit := 0
    inputSellAsset := emptyAsset
    inputBuyAsset := emptyAsset
    feeAssets := []
    marketDataUserCurrency := [] }

def sampleStep : TradeQuoteStep :=
  { sellAsset := emptyAsset
    buyAsset := emptyAsset
    accountNumber := 0
    sellAmountIncludingProtocolFeesCryptoBaseUnit := 100
    buyAmountBeforeFeesCryptoBaseUnit := 100
    buyAmountAfterFeesCryptoBaseUnit := 100
    feeData := { protocolFees := [], networkFeeCryptoBaseUnit := some 10 }
    estimatedExecutionTimeMs := 1000 }

def sampleQuote : TradeQuote :=
  { id := "route-1"
    steps := [sampleStep]
    receiveAddress := "0xrecv"
    affiliateBps := "0"
    rate := "1" }

/-- Response recorded by a provider that answered with an error only: a
route-id entry exists but carries no route. -/
def errApiQuote : ApiQuote :=
  { quote := none, errors := ["InsufficientLiquidity"], effectiveReceivedValue := 0 }

/-- State in which the one enabled provider has answered and no usable route
exists, yet the recorded response record is not empty. -/
def errResponseState : State :=
  { emptyState with
    inputSellAmountCryptoBaseUnit := some 1
    enabledSwappers := [SwapperName.cowSwap]
    tradeQuotes := [(SwapperName.cowSwap, [("q1", errApiQuote)])] }

/-- Fee asset of the CowSwap counterexample state: two decimals, so 100 base
units are one whole unit. -/
def cowFeeAsset : Asset :=
  { assetId := "eip155:1/slip44:60", chainId := "eip155:1", precision := 2 }

def cowStep : TradeQuoteStep :=
  { sellAsset := cowFeeAsset
    buyAsset := cowFeeAsset
    accountNumber := 0
    sellAmountIncludingProtocolFeesCryptoBaseUnit := 100
    buyAmountBeforeFeesCryptoBaseUnit := 100
    buyAmountAfterFeesCryptoBaseUnit := 100
    feeData := { protocolFees := [], networkFeeCryptoBaseUnit := some 100 }
    estimatedExecutionTimeMs := 1000 }

def cowQuote : TradeQuote :=
  { id := "cow-1"
    steps := [cowStep]
    receiveAddress := "0xrecv"
    affiliateBps := "0"
    rate := "1" }

def cowApiQuote : ApiQuote :=
  { quote := some cowQuote, errors := [], effectiveReceivedValue := 1 }

/-- State whose active quote is a CowSwap route with a non-zero recorded
network fee, a known fee asset and a user-currency rate of three. -/
def cowState : State :=
  { emptyState with
    tradeQuotes := [(SwapperName.cowSwap, [("cow-1", cowApiQuote)])]
    feeAssets := [(cowFeeAsset.assetId, cowFeeAsset)]
    marketDataUserCurrency := [(cowFeeAsset.assetId, 3)] }

/-! ## Hop execution event handling (useTradeExecution.tsx) -/

/-- Lifecycle field of the per-hop execution state, as the dispatched slice
actions set it (spec section 4.5). -/
inductive SwapTxState where
  | idle
  | pending
  | complete
  | failed
deriving DecidableEq, Repr

/-- Modelled from the spec: the tradeQuoteSlice reducers
(state/slices/tradeQuoteSlice/tradeQuoteSlice.ts) are not under src/. Spec
section 3, HopExecutionState: per hop index, lifecycle state, last known
sell-transaction identifier, last known buy-transaction identifier, last
status message. Each dispatched action updates the named field of the hop
the action carries. -/
structure HopExecutionState where
  state : SwapTxState
  sellTxHash : Option String
  buyTxHash : Option String
  message : Option String
deriving DecidableEq, Repr

/-- The two per-hop execution records of the slice
(selectHopExecutionMetadata reads firstHop for index zero, secondHop
otherwise). -/
structure TradeExecutionHops where
  firstHop : HopExecutionState
  secondHop : HopExecutionState
deriving DecidableEq, Repr

/-- Dispatch of a hop-indexed slice action: index zero updates the first
hop record, any other index the second. -/
def dispatchToHop (hopIndex : Nat) (f : HopExecutionState → HopExecutionState)
    (hops : TradeExecutionHops) : TradeExecutionHops :=
  if hopIndex = 0 then { hops with firstHop := f hops.firstHop }
  else { hops with secondHop := f hops.secondHop }

def setSwapTxPending (h : HopExecutionState) : HopExecutionState :=
  { h with state := .pending }

def setSwapTxFailed (h : HopExecutionState) : HopExecutionState :=
  { h with state := .failed }

def setSwapTxComplete (h : HopExecutionState) : HopExecutionState :=
  { h with state := .complete }

def setSwapTxMessage (message : Option String) (h : HopExecutionState) :
    HopExecutionState :=
  { h with message := message }

def setSwapSellTxHash (hash : String) (h : HopExecutionState) : HopExecutionState :=
  { h with sellTxHash := some hash }

/-- Execution context of one executeTrade call: the slice state, the local
txHash variable the handlers share, the error toasts shown, and whether
the returned promise has resolved. -/
structure ExecCtx where
  hops : TradeExecutionHops
  txHash : Option String
  errorToasts : List (Option String)
  resolved : Bool
deriving DecidableEq, Repr

/-- Events of the TradeExecution emitter handled in executeTrade
(useTradeExecution.tsx lines 82-124): SellTxHash, Status, Success, Fail and
Error; Fail and Error carry the message of the failure cause. -/
inductive TradeExecutionEvent where
  | sellTxHash (hash : String)
  | status (message : Option String) (buyTxHash : Option String)
  | success
  | fail (message : Option String)
  | error (message : Option String)
deriving DecidableEq, Repr

/-- The shared onFail handler (useTradeExecution.tsx lines 71-77): store the
failure message for the hop, mark the hop failed, show the error toast and
resolve the promise. -/
def onFail (hopIndex : Nat) (ctx : ExecCtx) (message : Option String) : ExecCtx :=
  { ctx with
    hops := dispatchToHop hopIndex setSwapTxFailed
      (dispatchToHop hopIndex (setSwapTxMessage message) ctx.hops)
    errorToasts := ctx.errorToasts ++ [message]
    resolved := true }

/-- One step of the executeTrade event handling (useTradeExecution.tsx lines
82-124). On Status the source builds the setSwapBuyTxHash action without
dispatching it (line 90), so only the local txHash variable and the message
change; the recorded buyTxHash of the hop does not. On Success with no
observed txHash the caller shows an error toast and resolves without
marking the hop complete. -/
def processEvent (hopIndex : Nat) (ctx : ExecCtx) :
    TradeExecutionEvent → ExecCtx
  | .sellTxHash hash =>
    { ctx with
      txHash := some hash
      hops := dispatchToHop hopIndex (setSwapSellTxHash hash) ctx.hops }
  | .status message buyTxHash =>
    let ctx1 : ExecCtx :=
      { ctx with hops := dispatchToHop hopIndex (setSwapTxMessage message) ctx.hops }
    match buyTxHash with
    | some hash => if hash = "" then ctx1 else { ctx1 with txHash := some hash }
    | none => ctx1
  | .success =>
    match ctx.txHash with
    | none =>
      { ctx with
        errorToasts := ctx.errorToasts ++ [some "missing txHash"]
        resolved := true }
    | some _ =>
      { ctx with
        hops := dispatchToHop hopIndex setSwapTxComplete
          (dispatchToHop hopIndex
            (setSwapTxMessage (some "trade.transactionSuccessful")) ctx.hops)
        resolved := true }
  | .fail message => onFail hopIndex ctx message
  | .error message => onFail hopIndex ctx message

/-- Start of executeTrade: setSwapTxPending is dispatched for the hop, the
local txHash is unset, no toast shown, promise pending. -/
def startExecution (hopIndex : Nat) (hops : TradeExecutionHops) : ExecCtx :=
  { hops := dispatchToHop hopIndex setSwapTxPending hops
    txHash := none
    errorToasts := []
    resolved := false }

def runEvents (hopIndex : Nat) (ctx : ExecCtx)
    (events : List TradeExecutionEvent) : ExecCtx :=
  events.foldl (processEvent hopIndex) ctx

def hopOf (hopIndex : Nat) (hops : TradeExecutionHops) : HopExecutionState :=
  if hopIndex = 0 then hops.firstHop else hops.secondHop

def otherHopOf (hopIndex : Nat) (hops : TradeExecutionHops) : HopExecutionState :=
  if hopIndex = 0 then hops.secondHop else hops.firstHop

/-- Events that write the local txHash variable: a SellTxHash event, or a
Status event carrying a non-empty buyTxHash. -/
def observesTxHash : TradeExecutionEvent → Bool
  | .sellTxHash _ => true
  | .status _ (some hash) => decide (hash ≠ "")
  | _ => false

def initialHopState : HopExecutionState :=
  { state := .idle, sellTxHash := none, buyTxHash := none, message := none }

def initialHops : TradeExecutionHops :=
  { firstHop := initialHopState, secondHop := initialHopState }

/-! ## Chain-family dispatch (useTradeExecution.tsx lines 132-272) -/

/-- Chain namespace parsed from the chain id of the sell asset of the hop
(fromChainId of the caip package). The recognized namespaces are the closed
CHAIN_NAMESPACE enumeration; anything else is unrecognized. -/
inductive ChainNamespace where
  | evm
  | utxo
  | cosmosSdk
  | unknown (value : String)
deriving DecidableEq, Repr

def chainNamespaceFromChainId (chainId : String) : ChainNamespace :=
  let ns := (chainId.splitOn ":").headD ""
  if ns = "eip155" then .evm
  else if ns = "bip122" then .utxo
  else if ns = "cosmos" then .cosmosSdk
  else .unknown ns

inductive UtxoAccountType where
  | p2pkh
  | p2sh
  | p2wpkh
deriving DecidableEq, Repr

/-- The sign-and-broadcast strategies executeTrade can select: the CowSwap
off-chain message signing path, the EVM custom-transaction path, the UTXO
path (which requires the account type) and the Cosmos-SDK path. -/
inductive HopSignBroadcastStrategy where
  | evmMessage
  | evmCustomTx
  | utxoTx (accountType : UtxoAccountType)
  | cosmosSdkTx
deriving DecidableEq, Repr

/-- Success flag of a fallible computation. -/
def exceptIsOk {ε α : Type} : Except ε α → Bool
  | .ok _ => true
  | .error _ => false

/-- The strategy dispatch of executeTrade: CowSwap takes the message-signing
path before the chain namespace is inspected; otherwise the switch over the
namespace selects the strategy, a missing UTXO account type throws, and the
default branch is assertUnreachable, a thrown fatal error. -/
def dispatchHopStrategy (swapperName : SwapperName) (ns : ChainNamespace)
    (accountType : Option UtxoAccountType) : Except String HopSignBroadcastStrategy :=
  if swapperName = SwapperName.cowSwap then .ok .evmMessage
  else
    match ns with
    | .evm => .ok .evmCustomTx
    | .utxo =>
      match accountType with
      | none => .error "Missing UTXO account type"
      | some t => .ok (.utxoTx t)
    | .cosmosSdk => .ok .cosmosSdkTx
    | .unknown value => .error ("unreachable: " ++ value)

end Shap

namespace ArbitrumBridge

/-! ## Arbitrum bridge getTradeQuote (src/unnamed/part_000) -/

inductive TradeQuoteError where
  | unsupportedTradePair
  | insufficientLiquidity
  | networkFeeEstimationFailed
  | validationFailed
deriving DecidableEq, Repr

/-- makeSwapErrorRight payload: a message and an error code. -/
structure SwapErrorRight where
  message : String
  code : Option TradeQuoteError
deriving DecidableEq, Repr

/-- Result of fetchArbitrumBridgeSwap, an external call whose outcome is an
input of the embedding. -/
structure ArbitrumBridgeSwap where
  networkFeeCryptoBaseUnit : Option Nat
  allowanceContract : String
deriving DecidableEq, Repr

structure GetEvmTradeQuoteInput where
  chainId : String
  sellAsset : Shap.Asset
  buyAsset : Shap.Asset
  accountNumber : Nat
  supportsEIP1559 : Bool
  receiveAddress : String
  sellAmountIncludingProtocolFeesCryptoBaseUnit : Nat
  sendAddress : Option String
deriving DecidableEq, Repr

structure ArbitrumTradeQuoteStep where
  estimatedExecutionTimeMs : Nat
  allowanceContract : String
  rate : String
  buyAsset : Shap.Asset
  sellAsset : Shap.Asset
  accountNumber : Nat
  buyAmountBeforeFeesCryptoBaseUnit : Nat
  buyAmountAfterFeesCryptoBaseUnit : Nat
  sellAmountIncludingProtocolFeesCryptoBaseUnit : Nat
  networkFeeCryptoBaseUnit : Option Nat
  source : Shap.SwapperName
deriving DecidableEq, Repr

inductive BridgeDirection where
  | deposit
  | withdrawal
deriving DecidableEq, Repr

structure ArbitrumBridgeTradeQuote where
  id : String
  receiveAddress : String
  affiliateBps : String
  potentialAffiliateBps : String
  rate : String
  slippageTolerancePercentageDecimal : String
  steps : List ArbitrumTradeQuoteStep
  direction : BridgeDirection
deriving DecidableEq, Repr

def ethChainId : String := "eip155:1"

/-- Modelled from the spec: getDefaultSlippageDecimalPercentageForSwapper
(constants of the swapper package) is not under src/; spec section 9 notes
the bridge path assumes no slippage. The value plays no part in any
claim. -/
def defaultSlippageArbitrumBridge : String := "0"

/-- getTradeQuote of the Arbitrum bridge swapper (src/unnamed/part_000 lines
53-133). The outcomes of the awaited external calls assertValidTrade and
fetchArbitrumBridgeSwap, and the generated uuid, are passed as inputs. -/
def getTradeQuote (input : GetEvmTradeQuoteInput)
    (assertion : Except SwapErrorRight Unit)
    (fetchResult : Except String ArbitrumBridgeSwap)
    (newId : String) : Except SwapErrorRight ArbitrumBridgeTradeQuote :=
  match assertion with
  | .error e => .error e
  | .ok _ =>
    let isDeposit : Bool := decide (input.sellAsset.chainId = ethChainId)
    let estimatedExecutionTimeMs : Nat :=
      if isDeposit then 15 * 60 * 1000 else 7 * 24 * 60 * 60 * 1000
    let rate : String := "1"
    match fetchResult with
    | .error _ =>
      .error
        { message := "[ArbitrumBridge: tradeQuote] - failed to get fee data"
          code := some .networkFeeEstimationFailed }
    | .ok swap =>
      let buyAmountBeforeFeesCryptoBaseUnit :=
        input.sellAmountIncludingProtocolFeesCryptoBaseUnit
      let buyAmountAfterFeesCryptoBaseUnit :=
        input.sellAmountIncludingProtocolFeesCryptoBaseUnit
      .ok
        { id := newId
          receiveAddress := input.receiveAddress
          affiliateBps := "0"
          potentialAffiliateBps := "0"
          rate := rate
          slippageTolerancePercentageDecimal := defaultSlippageArbitrumBridge
          steps := [{
            estimatedExecutionTimeMs := estimatedExecutionTimeMs
            allowanceContract := swap.allowanceContract
            rate := rate
            buyAsset := input.buyAsset
            sellAsset := input.sellAsset
            accountNumber := input.accountNumber
            buyAmountBeforeFeesCryptoBaseUnit := buyAmountBeforeFeesCryptoBaseUnit
            buyAmountAfterFeesCryptoBaseUnit := buyAmountAfterFeesCryptoBaseUnit
            sellAmountIncludingProtocolFeesCryptoBaseUnit :=
              input.sellAmountIncludingProtocolFeesCryptoBaseUnit
            networkFeeCryptoBaseUnit := swap.networkFeeCryptoBaseUnit
            source := Shap.SwapperName.arbitrumBridge }]
          direction := if isDeposit then .deposit else .withdrawal }

/-- Concrete input with a sell amount of one hundred base units. -/
def sampleInput : GetEvmTradeQuoteInput :=
  { chainId := "eip155:1"
    sellAsset := { assetId := "eip155:1/slip44:60", chainId := "eip155:1", precision := 18 }
    buyAsset := { assetId := "eip155:42161/slip44:60", chainId := "eip155:42161", precision := 18 }
    accountNumber := 0
    supportsEIP1559 := true
    receiveAddress := "0xrecv"
    sellAmountIncludingProtocolFeesCryptoBaseUnit := 100
    sendAddress := some "0xsend" }

def sampleSwap : ArbitrumBridgeSwap :=
  { networkFeeCryptoBaseUnit := some 42, allowanceContract := "" }

/-- The quote getTradeQuote produces at `sampleInput`. -/
def sampleArbQuote : ArbitrumBridgeTradeQuote :=
  { id := "id-1"
    receiveAddress := "0xrecv"
    affiliateBps := "0"
    potentialAffiliateBps := "0"
    rate := "1"
    slippageTolerancePercentageDecimal := "0"
    steps := [{
      estimatedExecutionTimeMs := 900000
      allowanceContract := ""
      rate := "1"
      buyAsset := { assetId := "eip155:42161/slip44:60", chainId := "eip155:42161", precision := 18 }
      sellAsset := { assetId := "eip155:1/slip44:60", chainId := "eip155:1", precision := 18 }
      accountNumber := 0
      buyAmountBeforeFeesCryptoBaseUnit := 100
      buyAmountAfterFeesCryptoBaseUnit := 100
      sellAmountIncludingProtocolFeesCryptoBaseUnit := 100
      networkFeeCryptoBaseUnit := some 42
      source := Shap.SwapperName.arbitrumBridge }]
    direction := .deposit }

end ArbitrumBridge

namespace Shap

/-! ## Theorems: request and response error selectors (C1, C2, C9) -/

/-- C1: for every state in which a confirmed route snapshot is set,
selectActiveQuote returns exactly that snapshot, whatever the tradeQuotes
map and the active-quote-meta pointer are mutated to. -/
theorem selectActiveQuote_confirmed_frozen (s : State) (q : TradeQuote)
    (h : s.confirmedQuote = some q)
    (tq : List (SwapperName × List (String × ApiQuote)))
    (meta : Option (SwapperName × String)) :
    selectActiveQuote { s with tradeQuotes := tq, activeQuoteMeta := meta } = some q := by
  simp [selectActiveQuote, h]

/-- Witness for C1 at a concrete state: the confirmed snapshot wins over a
later aggregate write and a changed pointer. -/
theorem selectActiveQuote_confirmed_frozen_witness :
    selectActiveQuote
      { { emptyState with confirmedQuote := some sampleQuote } with
        tradeQuotes := [(SwapperName.thorchain, [("other", errApiQuote)])]
        activeQuoteMeta := some (SwapperName.thorchain, "other") } = some sampleQuote :=
  selectActiveQuote_confirmed_frozen
    { emptyState with confirmedQuote := some sampleQuote } sampleQuote rfl
    [(SwapperName.thorchain, [("other", errApiQuote)])]
    (some (SwapperName.thorchain, "other"))

/-- C2 counterexample: in `errResponseState` every enabled provider has a
recorded response and none of the responses contains a usable route, yet
the response-error selector does not produce NoQuotesAvailable, because the
source only reports it when every recorded response record is empty. -/
theorem noQuotesAvailable_iff_counterexample :
    allEnabledSwappersResponded errResponseState = true ∧
    anyUsableRoute errResponseState = false ∧
    selectTradeQuoteResponseErrors errResponseState = [] := by
  decide

/-- C2 amended: the NoQuotesAvailable error is produced exactly when a
non-zero amount is entered, the tradeQuotes record has at least as many
provider entries as there are enabled providers, and every recorded
response record is empty (contains no route-id entries at all). -/
theorem noQuotesAvailable_iff_amended (s : State) :
    selectTradeQuoteResponseErrors s = [TradeQuoteRequestError.noQuotesAvailable] ↔
      (hasUserEnteredAmount s = true ∧
        s.enabledSwappers.length ≤ s.tradeQuotes.length ∧
        s.tradeQuotes.all (fun p => p.2.isEmpty) = true) := by
  unfold selectTradeQuoteResponseErrors
  by_cases h1 : hasUserEnteredAmount s
  · by_cases h2 : s.tradeQuotes.length < s.enabledSwappers.length
    · simp [h1, h2, Nat.not_le.mpr h2]
    · by_cases h3 : s.tradeQuotes.all (fun p => p.2.isEmpty)
      · simp [h1, h2, h3, Nat.not_lt.mp h2]
      · simp [h1, h2, h3]
  · simp [h1]

/-- C9: with a zero or absent entered sell amount, both the request-level
and the response-level error selectors return the empty list, whatever the
wallet, balance and AggregateState contents are. -/
theorem no_errors_without_entered_amount (s : State)
    (h : s.inputSellAmountCryptoBaseUnit = none ∨
      s.inputSellAmountCryptoBaseUnit = some 0) :
    selectTradeQuoteRequestErrors s = [] ∧ selectTradeQuoteResponseErrors s = [] := by
  have hb : hasUserEnteredAmount s = false := by
    rcases h with h | h <;> simp [hasUserEnteredAmount, h]
  exact ⟨by simp [selectTradeQuoteRequestErrors, hb],
    by simp [selectTradeQuoteResponseErrors, hb]⟩

/-- Witness for C9 at a concrete state with no entered amount. -/
theorem no_errors_without_entered_amount_witness :
    selectTradeQuoteRequestErrors emptyState = [] ∧
    selectTradeQuoteResponseErrors emptyState = [] :=
  no_errors_without_entered_amount emptyState (Or.inl rfl)

/-! ## Lemmas: association lists, flattening and ranking membership -/

theorem alookup_eq_some_of_mem {κ α : Type} [DecidableEq κ] {l : List (κ × α)}
    {k : κ} {v : α} (hmem : (k, v) ∈ l) (hnd : (l.map Prod.fst).Nodup) :
    alookup l k = some v := by
  induction l with
  | nil => cases hmem
  | cons p l ih =>
    rw [List.map_cons, List.nodup_cons] at hnd
    rcases List.mem_cons.mp hmem with h | h
    · rw [← h]
      simp [alookup]
    · have hk : p.1 ≠ k := by
        intro he
        exact hnd.1 (he ▸ List.mem_map.mpr ⟨(k, v), h, rfl⟩)
      simp only [alookup, if_neg hk]
      exact ih h hnd.2

theorem mem_of_alookup_eq_some {κ α : Type} [DecidableEq κ] {l : List (κ × α)}
    {k : κ} {v : α} (h : alookup l k = some v) : (k, v) ∈ l := by
  induction l with
  | nil => cases h
  | cons p l ih =>
    by_cases hk : p.1 = k
    · simp only [alookup, if_pos hk] at h
      obtain ⟨p1, p2⟩ := p
      cases Option.some.inj h
      simp only at hk
      rw [← hk]
      exact List.mem_cons_self _ _
    · simp only [alookup, if_neg hk] at h
      exact List.mem_cons_of_mem _ (ih h)

theorem mem_entriesOfSwapper {sw : SwapperName} {m : List (String × ApiQuote)}
    {e : RankedEntry} :
    e ∈ entriesOfSwapper sw m ↔
      e.swapperName = sw ∧ (e.identifier, e.response) ∈ m ∧
        e.response.quote = some e.quote := by
  unfold entriesOfSwapper
  rw [List.mem_filterMap]
  constructor
  · rintro ⟨⟨id, aq⟩, hmem, hf⟩
    cases hq : aq.quote with
    | none => rw [hq] at hf; cases hf
    | some q =>
      rw [hq] at hf
      cases Option.some.inj hf
      exact ⟨rfl, hmem, hq⟩
  · rintro ⟨h1, h2, h3⟩
    obtain ⟨a, b, c, d⟩ := e
    simp only at h1 h2 h3
    subst h1
    refine ⟨(b, c), h2, ?_⟩
    rw [h3]
    rfl

theorem mem_flattenQuoteEntries {tq : List (SwapperName × List (String × ApiQuote))}
    {e : RankedEntry} :
    e ∈ flattenQuoteEntries tq ↔
      ∃ m, (e.swapperName, m) ∈ tq ∧ (e.identifier, e.response) ∈ m ∧
        e.response.quote = some e.quote := by
  unfold flattenQuoteEntries
  rw [List.mem_flatMap]
  constructor
  · rintro ⟨⟨sw, m⟩, hp, hin⟩
    obtain ⟨h1, h2, h3⟩ := mem_entriesOfSwapper.mp hin
    exact ⟨m, by rw [h1]; exact hp, h2, h3⟩
  · rintro ⟨m, hp, h2, h3⟩
    exact ⟨(e.swapperName, m), hp, mem_entriesOfSwapper.mpr ⟨rfl, h2, h3⟩⟩

theorem lookup_of_mem_flatten {tq : List (SwapperName × List (String × ApiQuote))}
    {e : RankedEntry} (hwf : wellFormedQuotes tq) (he : e ∈ flattenQuoteEntries tq) :
    lookupQuoteEntry tq e.swapperName e.identifier = some e.response ∧
      e.response.quote = some e.quote := by
  obtain ⟨m, hp, hin, hq⟩ := mem_flattenQuoteEntries.mp he
  have h1 : alookup tq e.swapperName = some m := alookup_eq_some_of_mem hp hwf.1
  have h2 : alookup m e.identifier = some e.response :=
    alookup_eq_some_of_mem hin (hwf.2 (e.swapperName, m) hp)
  exact ⟨by simp [lookupQuoteEntry, h1, h2], hq⟩

theorem mem_flatten_of_lookup {tq : List (SwapperName × List (String × ApiQuote))}
    {sw : SwapperName} {id : String} {aq : ApiQuote} {q : TradeQuote}
    (hl : lookupQuoteEntry tq sw id = some aq) (hq : aq.quote = some q) :
    ({ swapperName := sw, identifier := id, response := aq, quote := q } :
      RankedEntry) ∈ flattenQuoteEntries tq := by
  unfold lookupQuoteEntry at hl
  cases hm : alookup tq sw with
  | none => rw [hm] at hl; cases hl
  | some m =>
    rw [hm] at hl
    exact mem_flattenQuoteEntries.mpr
      ⟨m, mem_of_alookup_eq_some hm, mem_of_alookup_eq_some hl, hq⟩

theorem mem_insertRanked {a x : RankedEntry} {l : List RankedEntry} :
    x ∈ insertRanked a l ↔ x = a ∨ x ∈ l := by
  induction l with
  | nil => simp [insertRanked]
  | cons b l ih =>
    unfold insertRanked
    by_cases h : rankLe a b
    · simp [h, List.mem_cons]
    · simp only [if_neg h, List.mem_cons, ih]
      tauto

theorem mem_sortRanked {x : RankedEntry} {l : List RankedEntry} :
    x ∈ sortRanked l ↔ x ∈ l := by
  induction l with
  | nil => simp [sortRanked]
  | cons a l ih => simp [sortRanked, mem_insertRanked, ih]

theorem selectActiveSwapperApiResponse_eq_bind (s : State) :
    selectActiveSwapperApiResponse s =
      (selectActiveQuoteMetaOrDefault s).bind
        (fun meta => lookupQuoteEntry s.tradeQuotes meta.1 meta.2) := by
  unfold selectActiveSwapperApiResponse
  cases selectActiveQuoteMetaOrDefault s <;> rfl

/-- Resolution of the top of the ranking output: looking the best-ranked
meta back up in the AggregateState yields exactly the route of the head
of the sorted list. -/
theorem resolve_best (tq : List (SwapperName × List (String × ApiQuote)))
    (hwf : wellFormedQuotes tq) :
    ((bestQuoteMeta (sortTradeQuotes tq)).bind
        (fun meta => lookupQuoteEntry tq meta.1 meta.2)).bind (fun r => r.quote) =
      ((sortTradeQuotes tq).head?).map (fun e => e.quote) := by
  cases hs : sortTradeQuotes tq with
  | nil => simp [bestQuoteMeta]
  | cons e rest =>
    have he : e ∈ flattenQuoteEntries tq := by
      have h1 : e ∈ sortTradeQuotes tq := by rw [hs]; exact List.mem_cons_self e rest
      rw [sortTradeQuotes] at h1
      exact mem_sortRanked.mp h1
    obtain ⟨hl, hq⟩ := lookup_of_mem_flatten hwf he
    simp [bestQuoteMeta, hl, hq]

/-! ## Theorems: active-route selection (C3) -/

/-- C3: for every well-formed state with no confirmed route,
selectActiveQuote agrees with the spec section 4.4 reading: the pinned
(provider, route-id) when it resolves to a route in the AggregateState,
else the route at the top of the ranking output, else nothing. -/
theorem activeQuote_selection_spec (s : State) (hwf : wellFormedQuotes s.tradeQuotes)
    (hconf : s.confirmedQuote = none) :
    selectActiveQuote s = claimActiveQuote s := by
  have hActive : selectActiveQuote s =
      ((getActiveQuoteMetaOrDefault s.activeQuoteMeta (sortTradeQuotes s.tradeQuotes)).bind
        (fun meta => lookupQuoteEntry s.tradeQuotes meta.1 meta.2)).bind
          (fun r => r.quote) := by
    rw [selectActiveQuote, hconf, selectActiveSwapperApiResponse_eq_bind,
      selectActiveQuoteMetaOrDefault, selectSortedTradeQuotes]
  rw [hActive, claimActiveQuote]
  cases hm : s.activeQuoteMeta with
  | none =>
    dsimp only [getActiveQuoteMetaOrDefault]
    exact resolve_best s.tradeQuotes hwf
  | some pin =>
    dsimp only [getActiveQuoteMetaOrDefault]
    by_cases hany : (sortTradeQuotes s.tradeQuotes).any
        (fun e => decide (e.swapperName = pin.1 ∧ e.identifier = pin.2)) = true
    · rw [if_pos hany]
      obtain ⟨e, he, hpe⟩ := List.any_eq_true.mp hany
      obtain ⟨h1, h2⟩ := of_decide_eq_true hpe
      have heF : e ∈ flattenQuoteEntries s.tradeQuotes := by
        rw [sortTradeQuotes] at he
        exact mem_sortRanked.mp he
      obtain ⟨hl, hq⟩ := lookup_of_mem_flatten hwf heF
      rw [h1, h2] at hl
      simp [hl, hq]
    · have hnone :
          (lookupQuoteEntry s.tradeQuotes pin.1 pin.2).bind (fun r => r.quote) = none := by
        cases hl : lookupQuoteEntry s.tradeQuotes pin.1 pin.2 with
        | none => rfl
        | some aq =>
          cases hq : aq.quote with
          | none => simp [hq]
          | some q =>
            exfalso
            apply hany
            refine List.any_eq_true.mpr
              ⟨{ swapperName := pin.1, identifier := pin.2, response := aq, quote := q },
                ?_, by simp⟩
            have hmem := mem_flatten_of_lookup hl hq
            rw [sortTradeQuotes]
            exact mem_sortRanked.mpr hmem
      rw [if_neg hany]
      simp only [hnone]
      exact resolve_best s.tradeQuotes hwf

/-- Witness for C3 at the concrete CowSwap state: the hypotheses hold and
the selection equation evaluates. -/
theorem activeQuote_selection_spec_witness :
    wellFormedQuotes cowState.tradeQuotes ∧ cowState.confirmedQuote = none ∧
      selectActiveQuote cowState = claimActiveQuote cowState := by
  have hwf : wellFormedQuotes cowState.tradeQuotes := ⟨by decide, by decide⟩
  exact ⟨hwf, rfl, activeQuote_selection_spec cowState hwf rfl⟩

/-! ## Theorems: network-fee metrics (C10) -/

/-- C10 counterexample: in `cowState` the active swapper is CowSwap, yet the
first-hop user-currency network-fee metric and the total user-currency
metric are three, not zero: the user-currency selectors convert the
recorded base-unit fee for every swapper. Only the crypto-precision
selectors zero the fee for CowSwap. -/
theorem cowSwap_userCurrency_fee_counterexample :
    selectActiveSwapperName cowState = some SwapperName.cowSwap ∧
    selectFirstHopNetworkFeeUserCurrencyPrecision cowState = .ok (some 3) ∧
    selectTotalNetworkFeeUserCurrencyPrecision cowState = .ok 3 ∧
    (3 : ℚ) ≠ 0 := by
  have hfirst : selectFirstHop cowState = some cowStep := rfl
  have hfee : selectFirstHopSellFeeAsset cowState = some cowFeeAsset := rfl
  have h1 : selectFirstHopNetworkFeeUserCurrencyPrecision cowState = .ok (some 3) := by
    simp only [selectFirstHopNetworkFeeUserCurrencyPrecision, hfirst, hfee]
    have : getHopTotalNetworkFeeUserCurrencyPrecision
        cowStep.feeData.networkFeeCryptoBaseUnit cowFeeAsset
        (feeAssetUserCurrencyRate cowState cowFeeAsset) = some 3 := by
      have hrate : feeAssetUserCurrencyRate cowState cowFeeAsset = 3 := rfl
      rw [hrate]
      show some (fromBaseUnit 100 cowFeeAsset.precision * 3) = some 3
      norm_num [fromBaseUnit, cowFeeAsset]
    rw [this]
  have hsecond : selectSecondHopNetworkFeeUserCurrencyPrecision cowState = .ok none := rfl
  have h2 : selectTotalNetworkFeeUserCurrencyPrecision cowState = .ok 3 := by
    rw [selectTotalNetworkFeeUserCurrencyPrecision, h1, hsecond]
    norm_num
  exact ⟨rfl, h1, h2, by norm_num⟩

/-- C10 amended: when the active swapper is CowSwap the per-hop network-fee
metrics in crypto precision (first, second and last hop) are zero whatever
the recorded base-unit fees are; for every other active swapper they are
the recorded base-unit fee converted by the fee-asset precision. The
user-currency metrics and their total are converted from the base-unit fee
regardless of the swapper. -/
theorem firstHopCryptoPrecision_eq_if (s : State) :
    selectFirstHopNetworkFeeCryptoPrecision s =
      if selectNetworkFeeRequiresBalance s = true then
        convertedHopFeeCryptoPrecision (selectFirstHopSellFeeAsset s)
          (selectFirstHopNetworkFeeCryptoBaseUnit s)
      else 0 := by
  unfold selectFirstHopNetworkFeeCryptoPrecision convertedHopFeeCryptoPrecision
  cases hb : selectNetworkFeeRequiresBalance s <;>
    cases hf : selectFirstHopSellFeeAsset s <;> simp

theorem secondHopCryptoPrecision_eq_if (s : State) :
    selectSecondHopNetworkFeeCryptoPrecision s =
      if selectNetworkFeeRequiresBalance s = true then
        convertedHopFeeCryptoPrecision (selectSecondHopSellFeeAsset s)
          (selectSecondHopNetworkFeeCryptoBaseUnit s)
      else 0 := by
  unfold selectSecondHopNetworkFeeCryptoPrecision convertedHopFeeCryptoPrecision
  cases hb : selectNetworkFeeRequiresBalance s <;>
    cases hf : selectSecondHopSellFeeAsset s <;> simp

theorem lastHopCryptoPrecision_eq_if (s : State) :
    selectLastHopNetworkFeeCryptoPrecision s =
      if selectNetworkFeeRequiresBalance s = true then
        convertedHopFeeCryptoPrecision (selectLastHopSellFeeAsset s)
          (selectLastHopNetworkFeeCryptoBaseUnit s)
      else 0 := by
  unfold selectLastHopNetworkFeeCryptoPrecision convertedHopFeeCryptoPrecision
  cases hb : selectNetworkFeeRequiresBalance s <;>
    cases hf : selectLastHopSellFeeAsset s <;> simp

theorem cowSwap_zeroes_cryptoPrecision_fees (s : State) (sw : SwapperName)
    (h : selectActiveSwapperName s = some sw) :
    selectFirstHopNetworkFeeCryptoPrecision s =
      (if sw = SwapperName.cowSwap then 0 else
        convertedHopFeeCryptoPrecision (selectFirstHopSellFeeAsset s)
          (selectFirstHopNetworkFeeCryptoBaseUnit s)) ∧
    selectSecondHopNetworkFeeCryptoPrecision s =
      (if sw = SwapperName.cowSwap then 0 else
        convertedHopFeeCryptoPrecision (selectSecondHopSellFeeAsset s)
          (selectSecondHopNetworkFeeCryptoBaseUnit s)) ∧
    selectLastHopNetworkFeeCryptoPrecision s =
      (if sw = SwapperName.cowSwap then 0 else
        convertedHopFeeCryptoPrecision (selectLastHopSellFeeAsset s)
          (selectLastHopNetworkFeeCryptoBaseUnit s)) := by
  rw [firstHopCryptoPrecision_eq_if, secondHopCryptoPrecision_eq_if,
    lastHopCryptoPrecision_eq_if]
  by_cases hc : sw = SwapperName.cowSwap
  · subst hc
    have hreq : selectNetworkFeeRequiresBalance s = false := by
      simp [selectNetworkFeeRequiresBalance, h]
    simp [hreq]
  · have hreq : selectNetworkFeeRequiresBalance s = true := by
      simp only [selectNetworkFeeRequiresBalance, h, decide_eq_true_eq]
      exact fun heq => hc (Option.some_injective _ heq)
    simp [hreq, hc]

/-- Witness for the amended C10 at the CowSwap state: all three
crypto-precision metrics are zero although a non-zero fee is recorded. -/
theorem cowSwap_zeroes_cryptoPrecision_fees_witness :
    selectFirstHopNetworkFeeCryptoPrecision cowState =
      (if SwapperName.cowSwap = SwapperName.cowSwap then 0 else
        convertedHopFeeCryptoPrecision (selectFirstHopSellFeeAsset cowState)
          (selectFirstHopNetworkFeeCryptoBaseUnit cowState)) ∧
    selectSecondHopNetworkFeeCryptoPrecision cowState =
      (if SwapperName.cowSwap = SwapperName.cowSwap then 0 else
        convertedHopFeeCryptoPrecision (selectSecondHopSellFeeAsset cowState)
          (selectSecondHopNetworkFeeCryptoBaseUnit cowState)) ∧
    selectLastHopNetworkFeeCryptoPrecision cowState =
      (if SwapperName.cowSwap = SwapperName.cowSwap then 0 else
        convertedHopFeeCryptoPrecision (selectLastHopSellFeeAsset cowState)
          (selectLastHopNetworkFeeCryptoBaseUnit cowState)) :=
  cowSwap_zeroes_cryptoPrecision_fees cowState SwapperName.cowSwap rfl

/-! ## Theorems: hop execution events (C4, C5, C6) -/

/-- C6: a Fail or Error event marks exactly the hop being executed as failed
with the failure message stored, leaves the other hop record untouched,
shows the toast, and resolves the promise normally; the Error event is
handled identically to Fail. -/
theorem hop_failure_isolated_and_resolves (hopIndex : Nat) (ctx : ExecCtx)
    (message : Option String) :
    hopOf hopIndex (processEvent hopIndex ctx (.fail message)).hops =
      { hopOf hopIndex ctx.hops with state := .failed, message := message } ∧
    otherHopOf hopIndex (processEvent hopIndex ctx (.fail message)).hops =
      otherHopOf hopIndex ctx.hops ∧
    (processEvent hopIndex ctx (.fail message)).errorToasts =
      ctx.errorToasts ++ [message] ∧
    (processEvent hopIndex ctx (.fail message)).resolved = true ∧
    processEvent hopIndex ctx (.error message) =
      processEvent hopIndex ctx (.fail message) := by
  by_cases h0 : hopIndex = 0 <;>
    simp [processEvent, onFail, dispatchToHop, hopOf, otherHopOf,
      setSwapTxFailed, setSwapTxMessage, h0]

/-- C5, evaluated at the failing input: handling a Status event carrying a
non-empty buyTxHash updates the stored message and the local txHash
variable, but the buy-transaction identifier recorded for the hop stays
unset, because the source never dispatches the setSwapBuyTxHash action it
builds. -/
theorem buyTxHash_not_dispatched_at_failing_input :
    (processEvent 0 (startExecution 0 initialHops)
        (.status (some "m") (some "0xbuy"))).hops.firstHop.buyTxHash = none ∧
    (processEvent 0 (startExecution 0 initialHops)
        (.status (some "m") (some "0xbuy"))).hops.firstHop.message = some "m" ∧
    (processEvent 0 (startExecution 0 initialHops)
        (.status (some "m") (some "0xbuy"))).txHash = some "0xbuy" := by
  decide

/-- C4 counterexample: an execution that observes only the sell transaction
hash and then Succeeded is marked complete with no error reported, although
no destination-side (buy) transaction identifier was ever observed. -/
theorem missing_buyTx_silent_success_counterexample :
    (runEvents 0 (startExecution 0 initialHops)
        [TradeExecutionEvent.sellTxHash "0xsell",
          TradeExecutionEvent.success]).hops.firstHop.state = SwapTxState.complete ∧
    (runEvents 0 (startExecution 0 initialHops)
        [TradeExecutionEvent.sellTxHash "0xsell",
          TradeExecutionEvent.success]).hops.firstHop.buyTxHash = none ∧
    (runEvents 0 (startExecution 0 initialHops)
        [TradeExecutionEvent.sellTxHash "0xsell",
          TradeExecutionEvent.success]).errorToasts = [] ∧
    (runEvents 0 (startExecution 0 initialHops)
        [TradeExecutionEvent.sellTxHash "0xsell",
          TradeExecutionEvent.success]).resolved = true := by
  decide

/-- The local txHash variable stays unset across events that observe no
transaction hash. -/
theorem txHash_none_of_no_observation (hopIndex : Nat) (ctx : ExecCtx)
    (events : List TradeExecutionEvent) (h0 : ctx.txHash = none)
    (h : ∀ e ∈ events, observesTxHash e = false) :
    (runEvents hopIndex ctx events).txHash = none := by
  induction events generalizing ctx with
  | nil => simpa [runEvents] using h0
  | cons e es ih =>
    rw [runEvents, List.foldl_cons]
    have hstep : (processEvent hopIndex ctx e).txHash = none := by
      have hobs : observesTxHash e = false := h e (List.mem_cons_self _ _)
      cases e with
      | sellTxHash hash => simp [observesTxHash] at hobs
      | status m b =>
        cases b with
        | none => simpa [processEvent] using h0
        | some hash =>
          simp only [observesTxHash, decide_eq_false_iff_not, not_not] at hobs
          simp [processEvent, hobs, h0]
      | success => simp [processEvent, h0]
      | fail m => simp [processEvent, onFail, h0]
      | error m => simp [processEvent, onFail, h0]
    exact ih _ hstep (fun x hx => h x (List.mem_cons_of_mem _ hx))

/-- C4 amended: an execution that reaches Succeeded without any transaction
identifier observed (no SellTxHash event and no Status event with a
non-empty buyTxHash) reports the missing-txHash error toast and resolves
without touching the hop records, in particular without marking the hop
complete. -/
theorem success_without_txHash_reports_error (hopIndex : Nat)
    (hops : TradeExecutionHops) (events : List TradeExecutionEvent)
    (h : ∀ e ∈ events, observesTxHash e = false) :
    (runEvents hopIndex (startExecution hopIndex hops) (events ++ [.success])).hops =
      (runEvents hopIndex (startExecution hopIndex hops) events).hops ∧
    (runEvents hopIndex (startExecution hopIndex hops)
        (events ++ [.success])).errorToasts =
      (runEvents hopIndex (startExecution hopIndex hops) events).errorToasts ++
        [some "missing txHash"] ∧
    (runEvents hopIndex (startExecution hopIndex hops)
        (events ++ [.success])).resolved = true := by
  have hnone : (runEvents hopIndex (startExecution hopIndex hops) events).txHash = none :=
    txHash_none_of_no_observation hopIndex _ events rfl h
  simp only [runEvents] at hnone
  refine ⟨?_, ?_, ?_⟩ <;>
    · simp only [runEvents, List.foldl_append]
      simp [processEvent, hnone]

/-- Witness for the amended C4: after one status poll with no buy hash,
Succeeded reports the error and the hop is not marked complete. -/
theorem success_without_txHash_reports_error_witness :
    (runEvents 0 (startExecution 0 initialHops)
        ([TradeExecutionEvent.status (some "polling") none] ++
          [TradeExecutionEvent.success])).hops =
      (runEvents 0 (startExecution 0 initialHops)
        [TradeExecutionEvent.status (some "polling") none]).hops ∧
    (runEvents 0 (startExecution 0 initialHops)
        ([TradeExecutionEvent.status (some "polling") none] ++
          [TradeExecutionEvent.success])).errorToasts =
      (runEvents 0 (startExecution 0 initialHops)
        [TradeExecutionEvent.status (some "polling") none]).errorToasts ++
        [some "missing txHash"] ∧
    (runEvents 0 (startExecution 0 initialHops)
        ([TradeExecutionEvent.status (some "polling") none] ++
          [TradeExecutionEvent.success])).resolved = true :=
  success_without_txHash_reports_error 0 initialHops
    [TradeExecutionEvent.status (some "polling") none] (by decide)

/-! ## Theorems: chain-family dispatch (C8) -/

/-- C8: the dispatch selects a strategy for every recognized chain family
(EVM, UTXO given its account type, Cosmos-SDK, and the CowSwap off-chain
message path), and an unrecognized chain namespace reaches the
assertUnreachable fatal error, never a silent no-op. -/
theorem chain_dispatch_exhaustive (sw : SwapperName) (acc : Option UtxoAccountType)
    (value : String) :
    exceptIsOk (dispatchHopStrategy sw .evm acc) = true ∧
    (acc.isSome = true → exceptIsOk (dispatchHopStrategy sw .utxo acc) = true) ∧
    exceptIsOk (dispatchHopStrategy sw .cosmosSdk acc) = true ∧
    exceptIsOk (dispatchHopStrategy SwapperName.cowSwap (.unknown value) acc) = true ∧
    (sw ≠ SwapperName.cowSwap →
      dispatchHopStrategy sw (.unknown value) acc =
        .error ("unreachable: " ++ value)) := by
  refine ⟨?_, ?_, ?_, ?_, ?_⟩
  · by_cases hc : sw = SwapperName.cowSwap <;> simp [dispatchHopStrategy, hc, exceptIsOk]
  · intro hacc
    by_cases hc : sw = SwapperName.cowSwap
    · simp [dispatchHopStrategy, hc, exceptIsOk]
    · obtain ⟨t, ht⟩ := Option.isSome_iff_exists.mp hacc
      simp [dispatchHopStrategy, hc, ht, exceptIsOk]
  · by_cases hc : sw = SwapperName.cowSwap <;> simp [dispatchHopStrategy, hc, exceptIsOk]
  · simp [dispatchHopStrategy, exceptIsOk]
  · intro hc
    simp [dispatchHopStrategy, hc]

/-! ## Theorems: Arbitrum bridge quote (C7) -/

/-- C7: every successful Arbitrum bridge quote is a single-hop route with
rate one whose buy amounts before and after fees both equal the requested
sell amount in base units. -/
theorem arbitrumBridge_quote_fixed_rate (input : ArbitrumBridge.GetEvmTradeQuoteInput)
    (assertion : Except ArbitrumBridge.SwapErrorRight Unit)
    (fetchResult : Except String ArbitrumBridge.ArbitrumBridgeSwap)
    (newId : String) (q : ArbitrumBridge.ArbitrumBridgeTradeQuote)
    (h : ArbitrumBridge.getTradeQuote input assertion fetchResult newId = .ok q) :
    q.rate = "1" ∧
    q.steps.map (fun st => st.rate) = ["1"] ∧
    q.steps.map (fun st => st.buyAmountBeforeFeesCryptoBaseUnit) =
      [input.sellAmountIncludingProtocolFeesCryptoBaseUnit] ∧
    q.steps.map (fun st => st.buyAmountAfterFeesCryptoBaseUnit) =
      [input.sellAmountIncludingProtocolFeesCryptoBaseUnit] := by
  cases assertion with
  | error e => simp [ArbitrumBridge.getTradeQuote] at h
  | ok u =>
    cases fetchResult with
    | error e => simp [ArbitrumBridge.getTradeQuote] at h
    | ok swap =>
      simp only [ArbitrumBridge.getTradeQuote, Except.ok.injEq] at h
      subst h
      simp

/-- Witness for C7 at a sell amount of one hundred base units: both buy
amounts are one hundred and the rate is one. -/
theorem arbitrumBridge_quote_fixed_rate_witness :
    ArbitrumBridge.sampleArbQuote.rate = "1" ∧
    ArbitrumBridge.sampleArbQuote.steps.map (fun st => st.rate) = ["1"] ∧
    ArbitrumBridge.sampleArbQuote.steps.map
      (fun st => st.buyAmountBeforeFeesCryptoBaseUnit) = [100] ∧
    ArbitrumBridge.sampleArbQuote.steps.map
      (fun st => st.buyAmountAfterFeesCryptoBaseUnit) = [100] :=
  arbitrumBridge_quote_fixed_rate ArbitrumBridge.sampleInput (.ok ())
    (.ok ArbitrumBridge.sampleSwap) "id-1" ArbitrumBridge.sampleArbQuote rfl

end Shap
